import Mathlib

/-!
Shallow embedding of the QA orchestration core of the `fbabossdiscord`
repository (TypeScript): the fan-out vector search merge
(`src/services/pinecone.ts`), the namespace router
(`src/services/namespace-router.ts`), the answer validator
(`src/services/openai.ts`), the QA pipeline with its two-tier retry
(`src/services/qa-pipeline.ts`), and the in-process job queue with
per-user rate limiting (`src/services/simple-queue.ts`).

Numeric scores and confidences (floats in the source) are modelled as
rationals.  External services (OpenAI chat/embeddings, Pinecone queries,
Supabase) are modelled as oracles supplied as function arguments: the
embedding is parameterised over what each external call returns, and the
control flow around those calls is translated from the source.
-/

namespace FbaBoss

/-! ## Vector search service (`src/services/pinecone.ts`) -/

/-- A Pinecone match: id, similarity score, and the metadata fields the
pipeline reads (`title`, `description`, `text`), plus the `namespace` tag
that `searchSimilar` adds to each match's metadata. -/
structure PineconeMatch where
  id : String
  score : ℚ
  title : Option String := none
  description : Option String := none
  text : Option String := none
  namespaceTag : Option String := none
  deriving Repr, DecidableEq

/-- `searchSimilar`: per-namespace tagging step —
`{ ...match, metadata: { ...match.metadata, namespace: ns } }`. -/
def tagNamespace (ns : String) (m : PineconeMatch) : PineconeMatch :=
  { m with namespaceTag := some ns }

/-- One arm of the fan-out in `searchSimilar`: query one namespace, tag the
matches, and map any thrown error to the empty list
(`catch ... return []` in the source). -/
def queryNamespace (query : String → Except String (List PineconeMatch))
    (ns : String) : List PineconeMatch :=
  match query ns with
  | .ok result => result.map (tagNamespace ns)
  | .error _ => []

/-- The comparator `(a, b) => b.score - a.score` used by
`allMatches.sort`: descending by score.  JS `Array.prototype.sort` is
stable; a stable sort by a fixed total preorder yields one unique list,
modelled here by the (stable) insertion sort. -/
def scoreDescRel (a b : PineconeMatch) : Prop := b.score ≤ a.score

instance (a b : PineconeMatch) : Decidable (scoreDescRel a b) :=
  inferInstanceAs (Decidable (b.score ≤ a.score))

/-- `PineconeService.searchSimilar` (merge part, lines 159-199): fan out
one query per namespace (each failure caught as `[]`), flatten, sort by
descending score, truncate to `topK`, then drop matches below
`minScore`.  The per-call query results are the oracle `query`. -/
def searchSimilar (query : String → Except String (List PineconeMatch))
    (topK : Nat) (minScore : ℚ) (namespaces : List String) :
    List PineconeMatch :=
  let namespaceResults := namespaces.map (queryNamespace query)
  let allMatches := namespaceResults.flatten
  let sorted := allMatches.insertionSort scoreDescRel
  let topMatches := sorted.take topK
  topMatches.filter (fun m => decide (minScore ≤ m.score))

/-! ## Namespace router (`src/services/namespace-router.ts`) -/

/-- `NamespaceRouting` interface: namespaces, reasoning, confidence. -/
structure NamespaceRouting where
  namespaces : List String
  reasoning : String
  confidence : ℚ
  deriving Repr, DecidableEq

/-- The keys of `unitMappings` in the `NamespaceRouter` constructor: the
fixed partition catalog `unit-1` .. `unit-9`. -/
def unitCatalog : List String :=
  ["unit-1", "unit-2", "unit-3", "unit-4", "unit-5",
   "unit-6", "unit-7", "unit-8", "unit-9"]

/-- Outcome of the string-processing front half of
`parseRoutingResponse` (trim, regex `\x7b[\s\S]*\x7d` extraction, then the
external `JSON.parse` library call): either no JSON object was found /
`JSON.parse` threw (`failed`), or the parsed object's three fields, each
absent (`none`) when the JSON object lacks it or it has the wrong shape
(a non-array `namespaces` is `none`, matching the `Array.isArray` check).
The parse outcome is an input of the model; everything after it is
translated from the source. -/
inductive ParsedRouting where
  | failed
  | parsed (namespaces : Option (List String)) (reasoning : Option String)
      (confidence : Option ℚ)
  deriving Repr, DecidableEq

/-- The fallback routing built in the `catch` of `parseRoutingResponse`. -/
def routingFallbackParse : NamespaceRouting :=
  { namespaces := ["unit-3"]
    reasoning := "Fallback to product research due to parsing error"
    confidence := mkRat 3 10 }

/-- The fallback routing built in the `catch` of `routeQuestion`. -/
def routingFallbackError : NamespaceRouting :=
  { namespaces := ["unit-3"]
    reasoning := "Fallback to product research due to routing error"
    confidence := mkRat 3 10 }

/-- `Math.min(Math.max(parsed.confidence || 0.5, 0.0), 1.0)`: a missing,
`null` or zero confidence (JS falsy) becomes 0.5, then the value is
clamped into [0, 1]. -/
def clampConfidence (c : Option ℚ) : ℚ :=
  let c0 : ℚ := match c with
    | none => mkRat 1 2
    | some x => if x = 0 then mkRat 1 2 else x
  min (max c0 0) 1

/-- `parsed.reasoning || 'No reasoning provided'` (empty string is falsy). -/
def reasoningOrDefault (r : Option String) : String :=
  match r with
  | none => "No reasoning provided"
  | some s => if s = "" then "No reasoning provided" else s

/-- `NamespaceRouter.parseRoutingResponse` (lines 98-139): on a parsed
object, reject a missing/non-array `namespaces` field, keep only names in
the catalog, and fall back when none survive; otherwise build the routing
with defaulted reasoning and clamped confidence.  Every failure path ends
in the `catch` returning `routingFallbackParse`. -/
def parseRoutingResponse (r : ParsedRouting) : NamespaceRouting :=
  match r with
  | .failed => routingFallbackParse
  | .parsed nss reasoning confidence =>
    match nss with
    | none => routingFallbackParse
    | some list =>
      let validNamespaces := list.filter (fun ns => unitCatalog.contains ns)
      if validNamespaces.isEmpty then routingFallbackParse
      else
        { namespaces := validNamespaces
          reasoning := reasoningOrDefault reasoning
          confidence := clampConfidence confidence }

/-- `NamespaceRouter.routeQuestion` (lines 29-56): the classifier chat
call (oracle: error, or the parse outcome of its response text) feeds
`parseRoutingResponse`; a thrown classification error is caught and
mapped to `routingFallbackError`.  Total: no error propagates. -/
def routeQuestion (classify : Except String ParsedRouting) :
    NamespaceRouting :=
  match classify with
  | .error _ => routingFallbackError
  | .ok r => parseRoutingResponse r

/-! ## Answer validator (`src/services/openai.ts`) -/

/-- The structured result `validateAnswer` expects. -/
structure ValidationResult where
  isValid : Bool
  confidence : ℚ
  feedback : String
  deriving Repr, DecidableEq

/-- Fields of the JSON object produced by `JSON.parse(response.content)`
in `validateAnswer`, each `none` when absent. -/
structure ParsedEvaluation where
  isValid : Option Bool := none
  confidence : Option ℚ := none
  feedback : Option String := none
  deriving Repr, DecidableEq

/-- `evaluation.feedback || 'No feedback provided'`. -/
def feedbackOrDefault (f : Option String) : String :=
  match f with
  | none => "No feedback provided"
  | some s => if s = "" then "No feedback provided" else s

/-- `OpenAIService.validateAnswer` (lines 320-393).  The oracle is the
validation chat call combined with `JSON.parse` of its content:
`.error` = the chat call threw, `.ok none` = the content did not parse,
`.ok (some ev)` = the parsed evaluation.  The chat-failure catch returns
confidence 0.5 / "Validation failed"; the parse-failure catch returns
confidence 0.5 / "Validation parsing failed"; a parsed evaluation is
passed through with JS-falsy defaulting (`|| false`, `|| 0`: for a
rational, falsy means absent or 0, so `evaluation.confidence || 0` is
`getD 0`) and NO clamping of the confidence. -/
def validateAnswer (chatAndParse : Except String (Option ParsedEvaluation)) :
    ValidationResult :=
  match chatAndParse with
  | .error _ =>
    { isValid := true, confidence := mkRat 1 2, feedback := "Validation failed" }
  | .ok none =>
    { isValid := true, confidence := mkRat 1 2
      feedback := "Validation parsing failed" }
  | .ok (some ev) =>
    { isValid := ev.isValid.getD false
      confidence := ev.confidence.getD 0
      feedback := feedbackOrDefault ev.feedback }

/-- `OpenAIService.estimateTokenCount`: `Math.ceil(text.length / 4)`. -/
def estimateTokenCount (text : String) : Nat :=
  (text.length + 3) / 4

/-! ## QA pipeline (`src/services/qa-pipeline.ts`) -/

/-- Token usage block of a chat completion. -/
structure ChatUsage where
  prompt_tokens : Nat := 0
  completion_tokens : Nat := 0
  total_tokens : Nat := 0
  deriving Repr, DecidableEq

/-- `ChatCompletionResponse` from `src/services/openai.ts`. -/
structure ChatCompletionResponse where
  content : String
  finishReason : String := "stop"
  usage : ChatUsage := {}
  deriving Repr, DecidableEq

/-- `QARequest` (the fields the pipeline control flow reads). -/
structure QARequest where
  question : String
  userId : String
  guildId : Option String := none
  channelId : Option String := none
  threadId : Option String := none
  contextMemory : Bool := false
  deriving Repr, DecidableEq

/-- One entry of `QAResponse.sources`. -/
structure QASource where
  title : String
  content : String
  score : ℚ
  deriving Repr, DecidableEq

/-- `QAResponse` (flattening the nested `usage` record). -/
structure QAResponse where
  answer : String
  confidence : ℚ
  sources : List QASource
  promptTokens : Nat
  completionTokens : Nat
  totalTokens : Nat
  embeddingTokens : Nat
  processingTime : Nat
  conversationId : Option String
  deriving Repr, DecidableEq

/-- JS `optionalString || default` (empty string is falsy). -/
def jsStringOr (s : Option String) (d : String) : String :=
  match s with
  | none => d
  | some x => if x = "" then d else x

/-- The token counters declared before the retry loop in
`processQuestion`; they accumulate across attempts (`+=`). -/
structure TokenAcc where
  embeddingTokens : Nat := 0
  promptTokens : Nat := 0
  completionTokens : Nat := 0
  deriving Repr, DecidableEq

/-- What each external call of one pipeline run returns, indexed by the
outer attempt number (and, for question improvement, the inner attempt).
`conversation` models `getConversationContext`, which catches all its
errors and returns a context string and an optional conversation id. -/
structure PipelineEnv where
  improve : Nat → Nat → Except String ChatCompletionResponse
  classify : Nat → String → Except String ParsedRouting
  embed : Nat → String → Except String (List ℚ)
  queryNs : Nat → String → Except String (List PineconeMatch)
  conversation : Nat → String × Option String
  generate : Nat → Except String ChatCompletionResponse
  validation : Nat → Except String (Option ParsedEvaluation)
  elapsedMs : Nat := 0

/-- Result and instrumentation of `improveQuestionWithRetry`: the
returned string, how many `improveQuestion` calls were made, and the
`setTimeout` delays (ms) awaited between them. -/
structure ImproveTrace where
  result : String
  callsMade : Nat
  delaysMs : List Nat
  deriving Repr, DecidableEq

/-- Body of the `for (attempt = 1; attempt <= maxRetries; attempt++)`
loop of `improveQuestionWithRetry`, with `fuel + 1` = remaining allowed
attempts (so `fuel = 0` means `attempt === maxRetries`): a successful
call returns `improvement.content || question`; the last failed attempt
returns the original question; earlier failures wait 500ms and retry. -/
def improveQuestionGo (improve : Nat → Except String ChatCompletionResponse)
    (question : String) (attempt : Nat) : Nat → ImproveTrace
  | 0 => { result := question, callsMade := attempt - 1, delaysMs := [] }
  | fuel + 1 =>
    match improve attempt with
    | .ok improvement =>
      { result := if improvement.content = "" then question
          else improvement.content
        callsMade := attempt
        delaysMs := [] }
    | .error _ =>
      if fuel = 0 then
        { result := question, callsMade := attempt, delaysMs := [] }
      else
        let rest := improveQuestionGo improve question (attempt + 1) fuel
        { rest with delaysMs := 500 :: rest.delaysMs }

/-- `QAPipelineService.improveQuestionWithRetry` (lines 201-220),
default `maxRetries = 2`.  Total: it never propagates an error. -/
def improveQuestionWithRetry
    (improve : Nat → Except String ChatCompletionResponse)
    (question : String) (maxRetries : Nat := 2) : ImproveTrace :=
  improveQuestionGo improve question 1 maxRetries

/-- `const maxRetries = 3` in `processQuestion`. -/
def maxRetries : Nat := 3

/-- One iteration of the `while (attempt < maxRetries)` body of
`processQuestion` (lines 67-172): steps 1-10 for attempt number
`attempt`, threading the token accumulators; an `.error` is the caught
exception of that attempt.  Steps 9-10 (`storeConversation`, `logUsage`)
catch their own errors and return no data, so they contribute no
observable state here. -/
def processQuestionAttempt (env : PipelineEnv) (req : QARequest)
    (acc : TokenAcc) (attempt : Nat) :
    TokenAcc × Except String QAResponse :=
  let improvedQuestion :=
    (improveQuestionWithRetry (env.improve attempt) req.question).result
  let routing := routeQuestion (env.classify attempt improvedQuestion)
  match env.embed attempt improvedQuestion with
  | .error e => (acc, .error e)
  | .ok _embedding =>
    let acc := { acc with
      embeddingTokens :=
        acc.embeddingTokens + estimateTokenCount improvedQuestion }
    let searchResults :=
      searchSimilar (env.queryNs attempt) 5 (mkRat 2 100) routing.namespaces
    let ctx :=
      if req.contextMemory && req.guildId.isSome then env.conversation attempt
      else ("", none)
    match env.generate attempt with
    | .error e => (acc, .error e)
    | .ok answerResponse =>
      let acc := { acc with
        promptTokens := acc.promptTokens + answerResponse.usage.prompt_tokens
        completionTokens :=
          acc.completionTokens + answerResponse.usage.completion_tokens }
      let validation := validateAnswer (env.validation attempt)
      (acc, .ok {
        answer := answerResponse.content
        confidence := validation.confidence
        sources := searchResults.map (fun result =>
          { title := jsStringOr result.title "Untitled"
            content := jsStringOr result.description (jsStringOr result.text "")
            score := result.score })
        promptTokens := acc.promptTokens
        completionTokens := acc.completionTokens
        totalTokens := acc.promptTokens + acc.completionTokens
        embeddingTokens := acc.embeddingTokens
        processingTime := env.elapsedMs
        conversationId := ctx.2 })

/-- The failure `processQuestion` can raise: `exhausted` is the
`Failed to process question after N attempts: msg` error thrown when the
final attempt fails; `unexpectedEndOfLoop` is the dead
`throw new Error('Unexpected end of retry loop')` after the loop. -/
inductive PipelineError where
  | exhausted (attempts : Nat) (lastError : String)
  | unexpectedEndOfLoop
  deriving Repr, DecidableEq

/-- The retry loop of `processQuestion`: `fuel + 1` = remaining attempts,
so `fuel = 0` means `attempt === maxRetries`, where the last error is
rethrown as `exhausted`; otherwise wait `min(1000 * 2^(attempt-1), 5000)`
ms and rerun the whole attempt.  On success, also report the attempt
number that succeeded. -/
def processLoop (env : PipelineEnv) (req : QARequest) (acc : TokenAcc)
    (attempt : Nat) : Nat → Except PipelineError (QAResponse × Nat)
  | 0 => .error .unexpectedEndOfLoop
  | fuel + 1 =>
    let step := processQuestionAttempt env req acc attempt
    match step.2 with
    | .ok resp => .ok (resp, attempt)
    | .error e =>
      if fuel = 0 then .error (.exhausted attempt e)
      else processLoop env req step.1 (attempt + 1) fuel

/-- `QAPipelineService.processQuestion` (lines 59-189): run the pipeline
with fresh token accumulators, up to `maxRetries = 3` attempts. -/
def processQuestion (env : PipelineEnv) (req : QARequest) :
    Except PipelineError (QAResponse × Nat) :=
  processLoop env req {} 1 maxRetries

/-- Decidable equality on `Except`, so concrete pipeline runs can be
checked by `decide`. -/
instance {e a : Type} [DecidableEq e] [DecidableEq a] :
    DecidableEq (Except e a) := fun x y =>
  match x, y with
  | .error e1, .error e2 =>
    if h : e1 = e2 then isTrue (by rw [h])
    else isFalse (by intro hc; injection hc with h2; exact h h2)
  | .ok a1, .ok a2 =>
    if h : a1 = a2 then isTrue (by rw [h])
    else isFalse (by intro hc; injection hc with h2; exact h h2)
  | .error _, .ok _ => isFalse (fun hc => Except.noConfusion hc)
  | .ok _, .error _ => isFalse (fun hc => Except.noConfusion hc)

/-! ## Job queue (`src/services/simple-queue.ts`) -/

/-- `QAJobData` scheduling fields (the request payload is irrelevant to
the queue logic).  `createdAt` is an epoch timestamp in ms; `priority`
is already defaulted per `options.priority || (highPriority ? 1 : 0)`. -/
structure QAJobData where
  jobId : String
  userId : String
  guildId : Option String := none
  priority : Int := 0
  createdAt : Nat := 0
  deriving Repr, DecidableEq

/-- The queue service's mutable state: the pending array `queue` and the
`processing` map, modelled as an association list from job id to an
execution token identifying the in-flight promise (two callers holding
the same token await the same execution). -/
structure QueueState where
  queue : List QAJobData := []
  processing : List (String × Nat) := []
  deriving Repr, DecidableEq

/-- The comparator `(a, b) => (b.priority || 0) - (a.priority || 0)`:
descending by priority; the JS sort is stable, modelled by the stable
insertion sort. -/
def priorityDescRel (a b : QAJobData) : Prop := b.priority ≤ a.priority

instance (a b : QAJobData) : Decidable (priorityDescRel a b) :=
  inferInstanceAs (Decidable (b.priority ≤ a.priority))

/-- `addQAJob` (lines 26-54): unshift on `highPriority`, else push, then
stable-sort the queue by descending priority. -/
def addQAJob (s : QueueState) (job : QAJobData) (highPriority : Bool) :
    QueueState :=
  let q := if highPriority then job :: s.queue else s.queue ++ [job]
  { s with queue := q.insertionSort priorityDescRel }

/-- `this.processing.get(jobId)` / `this.processing.has(jobId)`. -/
def lookupProcessing (s : QueueState) (jobId : String) : Option Nat :=
  (s.processing.find? (fun p => p.1 == jobId)).map (·.2)

/-- What the synchronous head of `processJob` does: return the existing
in-flight promise (`joined`), start a new execution (`started`), or
report the job id absent from the queue (`notFound`). -/
inductive StartOutcome where
  | joined (token : Nat)
  | started (token : Nat)
  | notFound
  deriving Repr, DecidableEq

/-- `processJob` (lines 56-79), phase 1 — everything before the `await`:
if the id is already in `processing`, return that promise and change
nothing; else look the job up in the queue (null when absent); else
create the execution promise (`newToken`) and record it in
`processing`.  The map insert happens only when the key was absent, so
`processing` keys stay unique. -/
def processJobStart (s : QueueState) (jobId : String) (newToken : Nat) :
    StartOutcome × QueueState :=
  match lookupProcessing s jobId with
  | some tok => (.joined tok, s)
  | none =>
    match s.queue.find? (fun j => j.jobId == jobId) with
    | none => (.notFound, s)
    | some _ =>
      (.started newToken,
        { s with processing := s.processing ++ [(jobId, newToken)] })

/-- `processJob`, phase 2 — the settle path run once the execution
promise resolves or rejects (both the `try` and `catch` arms):
`this.processing.delete(jobId)` (the map holds at most one entry per
key, so deletion is a filter) and
`this.queue = this.queue.filter(j => j.jobId !== jobId)`. -/
def processJobSettle (s : QueueState) (jobId : String) : QueueState :=
  { queue := s.queue.filter (fun j => !(j.jobId == jobId))
    processing := s.processing.filter (fun p => !(p.1 == jobId)) }

/-- `getQueueStats` (lines 144-156). -/
structure QueueStats where
  waiting : Nat
  active : Nat
  completed : Nat
  failed : Nat
  deriving Repr, DecidableEq

/-- `getQueueStats`: waiting = queue length, active = processing size;
completed/failed are not tracked. -/
def getQueueStats (s : QueueState) : QueueStats :=
  { waiting := s.queue.length
    active := s.processing.length
    completed := 0
    failed := 0 }

/-- `const adminUserId = '1101695671339335790'`. -/
def adminUserId : String := "1101695671339335790"

/-- `const oneMinute = 60 * 1000`. -/
def oneMinute : Nat := 60 * 1000

/-- `const maxRequests = 3`. -/
def maxRequests : Nat := 3

/-- The `userJobs` filter of `checkUserRateLimit`: queue jobs of this
(user, guild) created within the window.  JS `now - createdAt < 60000`
is also true when `createdAt > now`; truncated Nat subtraction gives 0
there, likewise true. -/
def rateLimitUserJobs (s : QueueState) (now : Nat) (userId guildId : String) :
    List QAJobData :=
  s.queue.filter (fun job =>
    job.userId == userId && job.guildId == some guildId &&
      decide (now - job.createdAt < oneMinute))

/-- The `processingJobs` filter of `checkUserRateLimit`: in-flight job
ids whose queue entry (found via `this.queue.find`) matches the (user,
guild) pair — no time-window condition on this one. -/
def rateLimitProcessingJobs (s : QueueState) (userId guildId : String) :
    List String :=
  (s.processing.map (·.1)).filter (fun jobId =>
    match s.queue.find? (fun j => j.jobId == jobId) with
    | some job => job.userId == userId && job.guildId == some guildId
    | none => false)

/-- Result record of `checkUserRateLimit`. -/
structure RateLimitResult where
  allowed : Bool
  remainingRequests : Nat
  resetTime : Nat
  deriving Repr, DecidableEq

/-- `checkUserRateLimit` (lines 158-209): the admin identity bypasses the
limit; otherwise pending-in-window plus in-flight jobs of the pair are
counted against `maxRequests = 3`. -/
def checkUserRateLimit (s : QueueState) (now : Nat) (userId guildId : String) :
    RateLimitResult :=
  if userId == adminUserId then
    { allowed := true, remainingRequests := 999, resetTime := now + 60000 }
  else
    let userJobs := rateLimitUserJobs s now userId guildId
    let processingJobs := rateLimitProcessingJobs s userId guildId
    let totalJobs := userJobs.length + processingJobs.length
    if totalJobs ≥ maxRequests then
      { allowed := false, remainingRequests := 0, resetTime := now + oneMinute }
    else
      { allowed := true, remainingRequests := maxRequests - totalJobs
        resetTime := now + oneMinute }

/-- The job ids currently in flight. -/
def processingKeys (s : QueueState) : List String := s.processing.map (·.1)

/-- Queue-state invariant: in-flight keys are unique (JS `Map`), and
every in-flight job id still has its entry in the pending queue (jobs
are removed from the queue only when their execution settles). -/
def QueueInv (s : QueueState) : Prop :=
  (processingKeys s).Nodup ∧ ∀ p ∈ s.processing, ∃ j ∈ s.queue, j.jobId = p.1

/-! ## Helper lemmas -/

theorem searchSimilar_length_le
    (query : String → Except String (List PineconeMatch))
    (topK : Nat) (minScore : ℚ) (namespaces : List String) :
    (searchSimilar query topK minScore namespaces).length ≤ topK := by
  simp only [searchSimilar]
  refine le_trans (List.length_filter_le _ _) ?_
  rw [List.length_take]
  exact min_le_left _ _

theorem searchSimilar_minScore
    (query : String → Except String (List PineconeMatch))
    (topK : Nat) (minScore : ℚ) (namespaces : List String) :
    ∀ m ∈ searchSimilar query topK minScore namespaces, minScore ≤ m.score := by
  simp only [searchSimilar]
  intro m hm
  simpa using (List.mem_filter.mp hm).2

theorem searchSimilar_sorted
    (query : String → Except String (List PineconeMatch))
    (topK : Nat) (minScore : ℚ) (namespaces : List String) :
    (searchSimilar query topK minScore namespaces).Pairwise
      (fun a b => b.score ≤ a.score) := by
  simp only [searchSimilar]
  haveI : IsTotal PineconeMatch scoreDescRel :=
    ⟨fun a b => le_total b.score a.score⟩
  haveI : IsTrans PineconeMatch scoreDescRel :=
    ⟨fun a b c hab hbc => le_trans hbc hab⟩
  have hsorted :
      ((namespaces.map (queryNamespace query)).flatten.insertionSort
        scoreDescRel).Pairwise scoreDescRel :=
    List.sorted_insertionSort scoreDescRel _
  have hsub : (List.filter (fun m => decide (minScore ≤ m.score))
      (List.take topK
        ((namespaces.map (queryNamespace query)).flatten.insertionSort
          scoreDescRel))).Sublist
      ((namespaces.map (queryNamespace query)).flatten.insertionSort
        scoreDescRel) :=
    List.Sublist.trans (List.filter_sublist _) (List.take_sublist topK _)
  exact (List.Pairwise.sublist hsub hsorted).imp (fun h => h)

theorem clampConfidence_unit (c : Option ℚ) :
    0 ≤ clampConfidence c ∧ clampConfidence c ≤ 1 := by
  simp only [clampConfidence]
  exact ⟨le_min (le_max_right _ _) zero_le_one, min_le_right _ _⟩

/-! ## Claim theorems -/

/-- C4: for every embedding (hence arbitrary per-namespace query results),
namespace set, `topK` and `minScore`, the merged fan-out result is sorted
by descending score, has at most `topK` matches, contains no match with
score below `minScore`, and equals the sort-truncate-then-floor pipeline
(the `minScore` filter is applied to the globally top-K ranked matches,
not per namespace). -/
theorem searchSimilar_merge_props
    (query : String → Except String (List PineconeMatch))
    (topK : Nat) (minScore : ℚ) (namespaces : List String) :
    (searchSimilar query topK minScore namespaces).Pairwise
        (fun a b => b.score ≤ a.score) ∧
    (searchSimilar query topK minScore namespaces).length ≤ topK ∧
    (∀ m ∈ searchSimilar query topK minScore namespaces, minScore ≤ m.score) ∧
    searchSimilar query topK minScore namespaces =
      (((namespaces.map (queryNamespace query)).flatten.insertionSort
          scoreDescRel).take topK).filter
        (fun m => decide (minScore ≤ m.score)) :=
  ⟨searchSimilar_sorted query topK minScore namespaces,
   searchSimilar_length_le query topK minScore namespaces,
   searchSimilar_minScore query topK minScore namespaces,
   rfl⟩

/-- C7: if the query of one namespace throws while the others are
whatever they are, the merged result equals the merge over the remaining
namespaces — the failing namespace contributes zero results and the
search as a whole does not fail (the embedding of `searchSimilar` is
total). -/
theorem searchSimilar_failed_namespace_dropped
    (query : String → Except String (List PineconeMatch))
    (topK : Nat) (minScore : ℚ) (l1 l2 : List String) (ns0 e : String)
    (h : query ns0 = .error e) :
    searchSimilar query topK minScore (l1 ++ ns0 :: l2) =
      searchSimilar query topK minScore (l1 ++ l2) := by
  simp only [searchSimilar, queryNamespace, List.map_append, List.map_cons,
    List.flatten_append, List.flatten_cons, h, List.nil_append]

/-- Witness for C7 at a concrete query function that fails on
`unit-2`. -/
theorem searchSimilar_failed_namespace_dropped_witness :
    searchSimilar (fun ns => if ns = "unit-2" then .error "down" else .ok [])
        5 0 (["unit-1"] ++ "unit-2" :: ["unit-3"]) =
      searchSimilar (fun ns => if ns = "unit-2" then .error "down" else .ok [])
        5 0 (["unit-1"] ++ ["unit-3"]) :=
  searchSimilar_failed_namespace_dropped _ 5 0 ["unit-1"] ["unit-3"]
    "unit-2" "down" (by simp)

theorem routingFallback_props (d : NamespaceRouting)
    (hd : d = routingFallbackParse ∨ d = routingFallbackError) :
    1 ≤ d.namespaces.length ∧ (∀ ns ∈ d.namespaces, ns ∈ unitCatalog) ∧
    0 ≤ d.confidence ∧ d.confidence ≤ 1 := by
  rcases hd with h | h <;> subst h <;>
    exact ⟨by decide, by decide, by decide, by decide⟩

/-- C5 (amended): for every classifier outcome, `routeQuestion` returns a
decision whose namespace list is nonempty with every name in the fixed
catalog, and whose confidence lies in [0,1]; the list's length is NOT
capped at 3 (see the counterexample: the code never truncates the
validated list). -/
theorem routeQuestion_decision_valid (classify : Except String ParsedRouting) :
    1 ≤ (routeQuestion classify).namespaces.length ∧
    (∀ ns ∈ (routeQuestion classify).namespaces, ns ∈ unitCatalog) ∧
    0 ≤ (routeQuestion classify).confidence ∧
    (routeQuestion classify).confidence ≤ 1 := by
  rcases classify with e | r
  · exact routingFallback_props _ (Or.inr rfl)
  · rcases r with _ | ⟨nss, reasoning, confidence⟩
    · exact routingFallback_props _ (Or.inl rfl)
    · rcases nss with _ | list
      · exact routingFallback_props _ (Or.inl rfl)
      · by_cases hempty :
            (list.filter (fun ns => unitCatalog.contains ns)).isEmpty = true
        · exact routingFallback_props _ (Or.inl (by
            simp only [routeQuestion, parseRoutingResponse]
            rw [if_pos hempty]))
        · have hgoal :
              routeQuestion (.ok (.parsed (some list) reasoning confidence)) =
                { namespaces :=
                    list.filter (fun ns => unitCatalog.contains ns)
                  reasoning := reasoningOrDefault reasoning
                  confidence := clampConfidence confidence } := by
            simp only [routeQuestion, parseRoutingResponse]
            rw [if_neg hempty]
          rw [hgoal]
          refine ⟨?_, ?_, (clampConfidence_unit confidence).1,
            (clampConfidence_unit confidence).2⟩
          · have hne :
                list.filter (fun ns => unitCatalog.contains ns) ≠ [] := by
              intro hnil
              rw [hnil] at hempty
              exact hempty rfl
            exact List.length_pos.mpr hne
          · intro ns hns
            have hc := (List.mem_filter.mp hns).2
            simpa using hc

/-- Counterexample to C5 as stated: a classifier response naming four
valid units yields a decision with four namespaces, violating the
claimed upper bound of 3. -/
theorem routeQuestion_four_namespaces :
    (routeQuestion (.ok (.parsed
        (some ["unit-1", "unit-2", "unit-3", "unit-4"]) none
        none))).namespaces.length = 4 ∧
    ¬ ((routeQuestion (.ok (.parsed
        (some ["unit-1", "unit-2", "unit-3", "unit-4"]) none
        none))).namespaces.length ≤ 3) := by
  decide

/-- The inputs on which C6 requires the fixed fallback: classification
threw, no JSON was found / parsing threw, the `namespaces` field is
missing or not an array, or no returned name survives catalog
validation. -/
def routingDegradedInput (classify : Except String ParsedRouting) : Bool :=
  match classify with
  | .error _ => true
  | .ok .failed => true
  | .ok (.parsed none _ _) => true
  | .ok (.parsed (some list) _ _) =>
    (list.filter (fun ns => unitCatalog.contains ns)).isEmpty

/-- C6: whenever the classifier fails, its response fails to parse, or it
returns an empty or all-invalid namespace list, `routeQuestion` returns
the single default partition `unit-3` with confidence exactly 0.3;
`routeQuestion` is a total function into `NamespaceRouting`, so no error
is ever propagated. -/
theorem routeQuestion_degrades_to_fallback
    (classify : Except String ParsedRouting)
    (h : routingDegradedInput classify = true) :
    (routeQuestion classify).namespaces = ["unit-3"] ∧
    (routeQuestion classify).confidence = mkRat 3 10 := by
  rcases classify with e | r
  · exact ⟨rfl, rfl⟩
  · rcases r with _ | ⟨nss, reasoning, confidence⟩
    · exact ⟨rfl, rfl⟩
    · rcases nss with _ | list
      · exact ⟨rfl, rfl⟩
      · simp only [routingDegradedInput] at h
        simp only [routeQuestion, parseRoutingResponse, h, if_true]
        exact ⟨rfl, rfl⟩

/-- Witness for C6 at a concrete all-invalid classifier response. -/
theorem routeQuestion_degrades_to_fallback_witness :
    (routeQuestion (.ok (.parsed (some ["unit-42"]) none
        none))).namespaces = ["unit-3"] ∧
    (routeQuestion (.ok (.parsed (some ["unit-42"]) none
        none))).confidence = mkRat 3 10 :=
  routeQuestion_degrades_to_fallback _ (by decide)

/-- C9: when the validation chat response cannot be parsed as the
expected structured result, `validateAnswer` returns the neutral
confidence 0.5 (and likewise when the validation call itself throws);
`validateAnswer` is total, so validation failure never fails the
request. -/
theorem validateAnswer_parse_failure_neutral (e : String) :
    validateAnswer (.ok none) =
      { isValid := true, confidence := mkRat 1 2
        feedback := "Validation parsing failed" } ∧
    (validateAnswer (.error e)).confidence = mkRat 1 2 :=
  ⟨rfl, rfl⟩

/-- C8: the question-improvement step carries its own retry of 2 attempts
with a fixed 500ms delay, independent of the outer pipeline retry; when
both attempts fail it returns the original question verbatim, and a
pipeline attempt then behaves exactly as if improvement had returned the
original question — improvement failure never fails the request
(`improveQuestionWithRetry` is total and never yields an error). -/
theorem improveQuestion_retry_degrades
    (improve : Nat → Except String ChatCompletionResponse)
    (q e1 e2 : String)
    (h1 : improve 1 = .error e1) (h2 : improve 2 = .error e2) :
    improveQuestionWithRetry improve q =
      { result := q, callsMade := 2, delaysMs := [500] } ∧
    (∀ (env : PipelineEnv) (req : QARequest) (acc : TokenAcc) (attempt : Nat),
      env.improve attempt = improve → req.question = q →
      processQuestionAttempt env req acc attempt =
        processQuestionAttempt
          { env with improve := fun _ _ => .ok { content := req.question } }
          req acc attempt) := by
  have hres : improveQuestionWithRetry improve q =
      { result := q, callsMade := 2, delaysMs := [500] } := by
    simp [improveQuestionWithRetry, improveQuestionGo, h1, h2]
  refine ⟨hres, ?_⟩
  intro env req acc attempt himp hq
  have hL : (improveQuestionWithRetry (env.improve attempt)
      req.question).result = req.question := by
    rw [himp, hq, hres]
  have hR : (improveQuestionWithRetry
      (fun _ => .ok ({ content := req.question } : ChatCompletionResponse))
      req.question).result = req.question := by
    simp [improveQuestionWithRetry, improveQuestionGo, ite_self]
  simp only [processQuestionAttempt, hL, hR]

/-- Witness for C8: both improvement calls fail, the step returns the
original question after 2 calls and one 500ms delay. -/
theorem improveQuestion_retry_degrades_witness :
    improveQuestionWithRetry (fun _ => .error "down") "How do I start" =
      { result := "How do I start", callsMade := 2, delaysMs := [500] } :=
  (improveQuestion_retry_degrades (fun _ => .error "down") "How do I start"
    "down" "down" rfl rfl).1

/-- C2: for a non-exempt (user, guild) pair, once 3 jobs of the pair sit
in the queue within the rolling 60s window the check denies with zero
remaining quota and a reset time in the future (in-flight jobs only add
to the count); once the window has elapsed (no pair job within the
window, none in flight) the check allows with the full quota of 3; and
the hard-coded admin identity is always allowed. -/
theorem checkUserRateLimit_spec (s : QueueState) (now : Nat)
    (userId guildId : String) (hadmin : userId ≠ adminUserId) :
    ((rateLimitUserJobs s now userId guildId).length = 3 →
      checkUserRateLimit s now userId guildId =
        { allowed := false, remainingRequests := 0
          resetTime := now + oneMinute } ∧
      now < now + oneMinute) ∧
    (rateLimitUserJobs s now userId guildId = [] →
      rateLimitProcessingJobs s userId guildId = [] →
      checkUserRateLimit s now userId guildId =
        { allowed := true, remainingRequests := maxRequests
          resetTime := now + oneMinute }) ∧
    checkUserRateLimit s now adminUserId guildId =
      { allowed := true, remainingRequests := 999
        resetTime := now + 60000 } := by
  have hbeq : ¬ ((userId == adminUserId) = true) := by
    simpa using hadmin
  refine ⟨?_, ?_, ?_⟩
  · intro h3
    have hge : (rateLimitUserJobs s now userId guildId).length +
        (rateLimitProcessingJobs s userId guildId).length ≥ maxRequests := by
      rw [h3]
      exact Nat.le_add_right 3 _
    constructor
    · simp only [checkUserRateLimit]
      rw [if_neg hbeq, if_pos hge]
    · exact Nat.lt_add_of_pos_right (by decide)
  · intro h0 hp
    simp only [checkUserRateLimit]
    rw [if_neg hbeq, h0, hp]
    rw [if_neg (by decide)]
    rfl
  · simp only [checkUserRateLimit]
    rw [if_pos (by simp)]

/-- Witness for C2: three in-window jobs of the pair deny the fourth
request with zero remaining quota. -/
theorem checkUserRateLimit_spec_witness :
    checkUserRateLimit
      { queue :=
          [ { jobId := "j1", userId := "u", guildId := some "g"
              createdAt := 50000 },
            { jobId := "j2", userId := "u", guildId := some "g"
              createdAt := 55000 },
            { jobId := "j3", userId := "u", guildId := some "g"
              createdAt := 59000 } ]
        processing := [] } 60000 "u" "g" =
      { allowed := false, remainingRequests := 0
        resetTime := 60000 + oneMinute } :=
  ((checkUserRateLimit_spec
      { queue :=
          [ { jobId := "j1", userId := "u", guildId := some "g"
              createdAt := 50000 },
            { jobId := "j2", userId := "u", guildId := some "g"
              createdAt := 55000 },
            { jobId := "j3", userId := "u", guildId := some "g"
              createdAt := 59000 } ]
        processing := [] } 60000 "u" "g" (by decide)).1 (by decide)).1

/-- C3: requesting a job id that is already in flight returns the same
in-flight execution and leaves the state untouched (no second
execution); settling removes the id from both the pending queue and the
in-flight table (idempotently — a second settle changes nothing, so the
removal happens exactly once) while leaving every other job's entries in
place. -/
theorem processJob_at_most_once (s : QueueState) (jobId : String)
    (tok newTok : Nat) (h : lookupProcessing s jobId = some tok) :
    processJobStart s jobId newTok = (.joined tok, s) ∧
    (∀ k ∈ processingKeys (processJobSettle s jobId), k ≠ jobId) ∧
    (∀ j ∈ (processJobSettle s jobId).queue, j.jobId ≠ jobId) ∧
    processJobSettle (processJobSettle s jobId) jobId =
      processJobSettle s jobId ∧
    (∀ p ∈ s.processing, p.1 ≠ jobId →
      p ∈ (processJobSettle s jobId).processing) ∧
    (∀ j ∈ s.queue, j.jobId ≠ jobId → j ∈ (processJobSettle s jobId).queue) := by
  refine ⟨?_, ?_, ?_, ?_, ?_, ?_⟩
  · simp only [processJobStart, h]
  · intro k hk
    simp only [processingKeys, processJobSettle] at hk
    rcases List.mem_map.mp hk with ⟨p, hp, rfl⟩
    have hfp := (List.mem_filter.mp hp).2
    simpa using hfp
  · intro j hj
    have hfj := (List.mem_filter.mp hj).2
    simpa using hfj
  · simp [processJobSettle, List.filter_filter, Bool.and_self]
  · intro p hp hne
    exact List.mem_filter_of_mem hp (by simpa using hne)
  · intro j hj hne
    exact List.mem_filter_of_mem hj (by simpa using hne)

/-- Witness for C3: joining an in-flight job returns its execution token
and leaves the state unchanged. -/
theorem processJob_at_most_once_witness :
    processJobStart
      { queue := [{ jobId := "j1", userId := "u" }]
        processing := [("j1", 7)] } "j1" 99 =
      (.joined 7,
        { queue := [{ jobId := "j1", userId := "u" }]
          processing := [("j1", 7)] }) :=
  (processJob_at_most_once
    { queue := [{ jobId := "j1", userId := "u" }]
      processing := [("j1", 7)] } "j1" 7 99 (by decide)).1

/-- C10: the queue operations preserve the invariant that every job id
in the in-flight table still sits in the pending queue (removal from the
queue happens only at settle time); consequently an in-flight job of a
(user, guild) pair created within the window is counted by the rate
limiter both as a pending job and as an in-flight job, and by
`getQueueStats` as waiting. -/
theorem processing_jobs_stay_queued :
    (∀ (s : QueueState) (job : QAJobData) (hp : Bool),
      QueueInv s → QueueInv (addQAJob s job hp)) ∧
    (∀ (s : QueueState) (jobId : String) (tok : Nat),
      QueueInv s → QueueInv (processJobStart s jobId tok).2) ∧
    (∀ (s : QueueState) (jobId : String),
      QueueInv s → QueueInv (processJobSettle s jobId)) ∧
    (∀ (s : QueueState) (now : Nat) (u g : String) (j : QAJobData)
        (tok : Nat),
      (s.queue.map (fun x => x.jobId)).Nodup →
      (j.jobId, tok) ∈ s.processing → j ∈ s.queue →
      j.userId = u → j.guildId = some g →
      now - j.createdAt < oneMinute →
      j ∈ rateLimitUserJobs s now u g ∧
      j.jobId ∈ rateLimitProcessingJobs s u g ∧
      1 ≤ (getQueueStats s).waiting) := by
  refine ⟨?_, ?_, ?_, ?_⟩
  · rintro s job hp ⟨hnd, hsub⟩
    constructor
    · simpa [addQAJob, processingKeys] using hnd
    · intro p hp'
      have hp'' : p ∈ s.processing := by simpa [addQAJob] using hp'
      obtain ⟨j, hj, hjid⟩ := hsub p hp''
      refine ⟨j, ?_, hjid⟩
      simp only [addQAJob]
      rw [(List.perm_insertionSort priorityDescRel _).mem_iff]
      cases hp
      · rw [if_neg (by simp)]
        exact List.mem_append.mpr (Or.inl hj)
      · rw [if_pos rfl]
        exact List.mem_cons_of_mem _ hj
  · rintro s jobId tok ⟨hnd, hsub⟩
    rcases hl : lookupProcessing s jobId with _ | t
    · rcases hf : s.queue.find? (fun x => x.jobId == jobId) with _ | job'
      · simp only [processJobStart, hl, hf]
        exact ⟨hnd, hsub⟩
      · simp only [processJobStart, hl, hf]
        constructor
        · have hnone : ∀ p ∈ s.processing, ¬ ((p.1 == jobId) = true) := by
            refine List.find?_eq_none.mp ?_
            simpa [lookupProcessing, Option.map_eq_none'] using hl
          have hnotin : jobId ∉ processingKeys s := by
            intro hmem
            rcases List.mem_map.mp hmem with ⟨p, hpmem, hpeq⟩
            exact hnone p hpmem (by simp [hpeq])
          simp only [processingKeys, List.map_append]
          rw [List.nodup_append]
          refine ⟨hnd, by simp, ?_⟩
          intro a ha hb
          simp only [List.map_cons, List.map_nil, List.mem_singleton] at hb
          subst hb
          exact hnotin ha
        · intro p hp'
          have hp'' : p ∈ s.processing ++ [(jobId, tok)] := hp'
          rcases List.mem_append.mp hp'' with hmem | hmem
          · exact hsub p hmem
          · rw [List.mem_singleton] at hmem
            subst hmem
            refine ⟨job', List.mem_of_find?_eq_some hf, ?_⟩
            simpa using List.find?_some hf
    · simp only [processJobStart, hl]
      exact ⟨hnd, hsub⟩
  · rintro s jobId ⟨hnd, hsub⟩
    constructor
    · exact List.Nodup.sublist
        (List.Sublist.map _ (List.filter_sublist _)) hnd
    · intro p hp'
      have hp2 := List.mem_filter.mp hp'
      obtain ⟨j, hj, hjid⟩ := hsub p hp2.1
      have hpne : p.1 ≠ jobId := by simpa using hp2.2
      refine ⟨j, List.mem_filter_of_mem hj (by simp [hjid, hpne]), hjid⟩
  · intro s now u g j tok hqnd hproc hqueue huser hguild hwin
    refine ⟨?_, ?_, ?_⟩
    · exact List.mem_filter_of_mem hqueue (by simp [huser, hguild, hwin])
    · have hkey : j.jobId ∈ s.processing.map (fun p => p.1) :=
        List.mem_map.mpr ⟨(j.jobId, tok), hproc, rfl⟩
      have hfj : s.queue.find? (fun x => x.jobId == j.jobId) = some j := by
        rcases hf : s.queue.find? (fun x => x.jobId == j.jobId) with _ | job₀
        · exfalso
          have hcontra := List.find?_eq_none.mp hf j hqueue
          simp at hcontra
        · have hmem := List.mem_of_find?_eq_some hf
          have hid : job₀.jobId = j.jobId := by
            simpa using List.find?_some hf
          have heq : job₀ = j := List.inj_on_of_nodup_map hqnd hmem hqueue hid
          rw [hf, heq]
      refine List.mem_filter_of_mem hkey ?_
      simp only [rateLimitProcessingJobs, hfj]
      simp [huser, hguild]
    · exact List.length_pos.mpr (List.ne_nil_of_mem hqueue)

/-- An in-flight job used to witness C10's counting conjunct. -/
def c10Job : QAJobData :=
  { jobId := "j1", userId := "u", guildId := some "g", priority := 0
    createdAt := 0 }

/-- A queue state where `c10Job` is both pending and in flight. -/
def c10State : QueueState :=
  { queue := [c10Job], processing := [("j1", 5)] }

/-- Witness for C10 (counting conjunct): a concrete in-flight job is
counted among the pair's pending in-window jobs. -/
theorem processing_jobs_stay_queued_witness :
    c10Job ∈ rateLimitUserJobs c10State 1000 "u" "g" :=
  (processing_jobs_stay_queued.2.2.2 c10State 1000 "u" "g" c10Job 5
    (by decide) (by decide) (by decide) rfl rfl (by decide)).1

/-- Whether a pipeline failure is the exhaustion error. -/
def PipelineError.isExhausted : PipelineError → Bool
  | .exhausted _ _ => true
  | .unexpectedEndOfLoop => false

/-- The attempt count an exhaustion error reports. -/
def PipelineError.attemptCount : PipelineError → Nat
  | .exhausted n _ => n
  | .unexpectedEndOfLoop => 0

theorem validateAnswer_confidence_unit
    (v : Except String (Option ParsedEvaluation))
    (h : ∀ ev : ParsedEvaluation, v = .ok (some ev) →
      0 ≤ ev.confidence.getD 0 ∧ ev.confidence.getD 0 ≤ 1) :
    0 ≤ (validateAnswer v).confidence ∧ (validateAnswer v).confidence ≤ 1 := by
  rcases v with e | o
  · simp only [validateAnswer]
    exact ⟨by decide, by decide⟩
  · rcases o with _ | ev
    · simp only [validateAnswer]
      exact ⟨by decide, by decide⟩
    · simpa [validateAnswer] using h ev rfl

theorem processQuestionAttempt_ok_props (env : PipelineEnv) (req : QARequest)
    (acc : TokenAcc) (attempt : Nat) (resp : QAResponse)
    (hval : ∀ ev : ParsedEvaluation, env.validation attempt = .ok (some ev) →
      0 ≤ ev.confidence.getD 0 ∧ ev.confidence.getD 0 ≤ 1)
    (h : (processQuestionAttempt env req acc attempt).2 = .ok resp) :
    0 ≤ resp.confidence ∧ resp.confidence ≤ 1 ∧
      resp.sources.length ≤ 5 := by
  simp only [processQuestionAttempt] at h
  rcases hembed : env.embed attempt
      ((improveQuestionWithRetry (env.improve attempt)
        req.question).result) with e | emb
  · rw [hembed] at h
    simp at h
  · rw [hembed] at h
    rcases hgen : env.generate attempt with e | ans
    · rw [hgen] at h
      simp at h
    · rw [hgen] at h
      simp only [Except.ok.injEq] at h
      subst h
      refine ⟨?_, ?_, ?_⟩
      · exact (validateAnswer_confidence_unit _ hval).1
      · exact (validateAnswer_confidence_unit _ hval).2
      · simpa [List.length_map] using
          searchSimilar_length_le (env.queryNs attempt) 5 (mkRat 2 100) _

theorem processLoop_cases (env : PipelineEnv) (req : QARequest)
    (hval : ∀ (a : Nat) (ev : ParsedEvaluation),
      env.validation a = .ok (some ev) →
      0 ≤ ev.confidence.getD 0 ∧ ev.confidence.getD 0 ≤ 1) :
    ∀ (fuel : Nat) (acc : TokenAcc) (attempt : Nat), fuel ≠ 0 →
    (∃ resp k, processLoop env req acc attempt fuel = .ok (resp, k) ∧
       0 ≤ resp.confidence ∧ resp.confidence ≤ 1 ∧
       resp.sources.length ≤ 5) ∨
    (∃ msg, processLoop env req acc attempt fuel =
      .error (.exhausted (attempt + fuel - 1) msg)) := by
  intro fuel
  induction fuel with
  | zero => intro acc attempt h0; exact absurd rfl h0
  | succ f ih =>
    intro acc attempt _
    rcases hstep : (processQuestionAttempt env req acc attempt).2 with e | resp
    · by_cases hf : f = 0
      · subst hf
        refine Or.inr ⟨e, ?_⟩
        simp [processLoop, hstep]
      · have hnext : processLoop env req acc attempt (f + 1) =
            processLoop env req (processQuestionAttempt env req acc attempt).1
              (attempt + 1) f := by
          simp [processLoop, hstep, hf]
        rcases ih (processQuestionAttempt env req acc attempt).1
            (attempt + 1) hf with ⟨resp, k, heq, hprops⟩ | ⟨msg, heq⟩
        · exact Or.inl ⟨resp, k, by rw [hnext, heq], hprops⟩
        · refine Or.inr ⟨msg, ?_⟩
          rw [hnext, heq]
          have harith : attempt + 1 + f - 1 = attempt + (f + 1) - 1 := by omega
          rw [harith]
    · refine Or.inl ⟨resp, attempt, ?_,
        processQuestionAttempt_ok_props env req acc attempt resp
          (hval attempt) hstep⟩
      simp [processLoop, hstep]

/-- C1 (amended): for every environment and request, `processQuestion`
either returns a `QAResponse` whose sources list has length at most the
configured `topK` (5) and — provided every successfully parsed validator
confidence lies in [0,1] — whose confidence lies in [0,1], or fails after
exactly the configured maximum of 3 attempts with the pipeline-exhaustion
error.  (As stated, the claim's unconditional confidence bound is false:
the code never clamps the validator's parsed confidence; see the
counterexample.) -/
theorem processQuestion_props (env : PipelineEnv) (req : QARequest)
    (hval : ∀ (a : Nat) (ev : ParsedEvaluation),
      env.validation a = .ok (some ev) →
      0 ≤ ev.confidence.getD 0 ∧ ev.confidence.getD 0 ≤ 1) :
    (∀ resp k, processQuestion env req = .ok (resp, k) →
      0 ≤ resp.confidence ∧ resp.confidence ≤ 1 ∧
      resp.sources.length ≤ 5) ∧
    (∀ e, processQuestion env req = .error e →
      e.isExhausted = true ∧ e.attemptCount = 3) := by
  have hPQ : processQuestion env req = processLoop env req {} 1 3 := rfl
  have hcases := processLoop_cases env req hval 3 {} 1 (by decide)
  rw [hPQ]
  constructor
  · intro resp k hok
    rcases hcases with ⟨resp', k', heq, hprops⟩ | ⟨msg, heq⟩
    · have : resp' = resp ∧ k' = k := by
        have := heq.symm.trans hok
        simpa using this
      rcases this with ⟨rfl, rfl⟩
      exact hprops
    · rw [hok] at heq
      simp at heq
  · intro e herr
    rcases hcases with ⟨resp', k', heq, hprops⟩ | ⟨msg, heq⟩
    · rw [herr] at heq
      simp at heq
    · rw [herr] at heq
      have : e = .exhausted (1 + 3 - 1) msg := by simpa using heq
      subst this
      exact ⟨rfl, rfl⟩

/-- A degraded-but-successful environment: improvement, classification
and every namespace query fail (all individually non-fatal), generation
succeeds, validation output does not parse. -/
def envDegraded : PipelineEnv :=
  { improve := fun _ _ => .error "improve down"
    classify := fun _ _ => .error "classify down"
    embed := fun _ _ => .ok []
    queryNs := fun _ _ => .error "pinecone down"
    conversation := fun _ => ("", none)
    generate := fun _ => .ok { content := "A" }
    validation := fun _ => .ok none }

/-- The response `processQuestion` produces under `envDegraded`. -/
def respDegraded : QAResponse :=
  { answer := "A", confidence := mkRat 1 2, sources := [], promptTokens := 0
    completionTokens := 0, totalTokens := 0, embeddingTokens := 1
    processingTime := 0, conversationId := none }

/-- Witness for C1 at a concrete environment: the pipeline succeeds on
attempt 1 with confidence 0.5 and no sources. -/
theorem processQuestion_props_witness :
    0 ≤ respDegraded.confidence ∧ respDegraded.confidence ≤ 1 ∧
      respDegraded.sources.length ≤ 5 :=
  (processQuestion_props envDegraded { question := "Q", userId := "u" }
      (by intro a ev h; simp [envDegraded] at h)).1 respDegraded 1 (by decide)

/-- An environment whose validator reports confidence 2. -/
def envOverconfident : PipelineEnv :=
  { improve := fun _ _ => .error "improve down"
    classify := fun _ _ => .error "classify down"
    embed := fun _ _ => .ok []
    queryNs := fun _ _ => .error "pinecone down"
    conversation := fun _ => ("", none)
    generate := fun _ => .ok { content := "A" }
    validation := fun _ =>
      .ok (some { isValid := some true, confidence := some 2
                  feedback := some "fine" }) }

/-- Counterexample to C1 as stated: with a validator response whose
parsed confidence is 2, `processQuestion` succeeds and returns
confidence 2 ∉ [0,1] — the code passes the validator's confidence
through without clamping. -/
theorem processQuestion_confidence_unclamped :
    processQuestion envOverconfident { question := "Q", userId := "u" } =
      .ok ({ answer := "A", confidence := 2, sources := []
             promptTokens := 0, completionTokens := 0, totalTokens := 0
             embeddingTokens := 1, processingTime := 0
             conversationId := none }, 1) ∧
    ¬ ((2 : ℚ) ≤ 1) :=
  ⟨by decide, by decide⟩

end FbaBoss
